import Mathlib

/-!
Verification of the client-side filter/ranking pipeline of the News-Dashboard
repository.  The definitions below are a shallow embedding of the JavaScript
source: the list pipelines of NewsFeed.js and AnalystQuotes, the chart window
and series builder of ConflictCharts.js, and the region filter of
GeographicMap.  JS strings are Lean strings, JS numbers that carry scores or
coordinates are rationals, absent/undefined fields are Option, and a JS
TypeError (member access on undefined) is modelled by Option-valued
computation returning none.
-/

namespace NewsDashboard

/-- Does the pattern occur at the very start of the text?  Character-list
worker for the JS substring test. -/
def leadMatch : List Char → List Char → Bool
  | [], _ => true
  | _ :: _, [] => false
  | a :: as, b :: bs => a == b && leadMatch as bs

/-- Scan of the text for an occurrence of the pattern at any position. -/
def hasRun (q : List Char) : List Char → Bool
  | [] => q.isEmpty
  | b :: bs => leadMatch q (b :: bs) || hasRun q bs

/-- JS `s.includes(q)` : exact substring containment, no tokenization. -/
def jsIncludes (s q : String) : Bool :=
  hasRun q.data s.data

/-- JS `toLowerCase()`, character by character (the core String.toLower does
exactly this map but is opaque to kernel evaluation). -/
def lowerStr (s : String) : String :=
  ⟨s.data.map Char.toLower⟩

/-- Declarative substring property: the pattern occurs contiguously inside
the text. -/
def SubstringOf (q s : String) : Prop :=
  ∃ u v, s.data = u ++ q.data ++ v

/-- A candidate item of the list pipelines (article or analyst quote).
Fields are the union of the shapes in NewsFeed.js and AnalystQuotes;
every field an item may lack at runtime is an Option. -/
structure Item where
  id : Nat
  title : Option String
  content : Option String
  analyst_name : Option String
  organization : Option String
  published_date : Option String
  date : Option String
  primary_category : Option String
  secondary_category : Option String
  priority_score : Option ℚ
deriving DecidableEq

/-- The filter state assembled by SearchFilter and held by Dashboard.js.
All fields are always present in the Dashboard's state object except the
custom dates and the per-tab dataType override. -/
structure FilterCriteria where
  category : String
  dateRange : String
  searchQuery : String
  region : String
  dataType : Option String
  startDate : Option Int
  endDate : Option Int
deriving DecidableEq

/-- Category filter step of NewsFeed.js (lines 112-118): when the category is
truthy and not "all", keep items whose primary OR secondary category equals
it. -/
def newsCategoryFilter (category : String) (items : List Item) : List Item :=
  if category ≠ "" ∧ category ≠ "all" then
    items.filter fun item =>
      item.primary_category == some category ||
      item.secondary_category == some category
  else items

/-- Search predicate of NewsFeed.js (lines 123-126):
`item.title?.toLowerCase().includes(query) ||
 item.content?.toLowerCase().includes(query)`.
The optional chain makes a missing field contribute `false`; the query is
already lower-cased by the caller. -/
def newsMatchesQuery (query : String) (item : Item) : Bool :=
  (match item.title with
   | some t => jsIncludes (lowerStr t) query
   | none => false) ||
  (match item.content with
   | some c => jsIncludes (lowerStr c) query
   | none => false)

/-- Search filter step of NewsFeed.js (lines 120-127): applied only when the
query string is truthy (non-empty); the query is lower-cased once. -/
def newsSearchFilter (searchQuery : String) (items : List Item) : List Item :=
  if searchQuery ≠ "" then
    items.filter (newsMatchesQuery (lowerStr searchQuery))
  else items

/-- The sort comparator `(a, b) => b.priority_score - a.priority_score` of
NewsFeed.js line 133 / AnalystQuotes line 103, read as "a may stay before b".
A present pair compares numerically (descending); if either score is
undefined the JS subtraction yields NaN, which ECMAScript SortCompare maps
to +0, i.e. a tie, so either order is allowed and a stable sort keeps `a`
first. -/
def scoreLe (a b : Item) : Bool :=
  match a.priority_score, b.priority_score with
  | some x, some y => decide (y ≤ x)
  | _, _ => true

/-- Stable insertion of an element in front of the first entry it need not
follow. -/
def insertDesc (a : Item) : List Item → List Item
  | [] => [a]
  | y :: ys => if scoreLe a y then a :: y :: ys else y :: insertDesc a ys

/-- The rank step: ECMAScript `Array.prototype.sort` is required to be
stable, and for a consistent comparator every stable sort produces the same
list, so the step is embedded as a stable insertion sort over `scoreLe`. -/
def sortByScoreDesc (items : List Item) : List Item :=
  items.foldr insertDesc []

/-- The NewsFeed.js pipeline (lines 103-138) with the candidate collection
abstracted as a parameter: category filter, search filter, descending
stable sort by priority score, then `slice(0, limit)`. -/
def newsApply (filters : FilterCriteria) (items : List Item) (limit : Nat) :
    List Item :=
  (sortByScoreDesc
    (newsSearchFilter filters.searchQuery
      (newsCategoryFilter filters.category items))).take limit

/-- Category filter step of AnalystQuotes (lines 82-88): only
`quote.primary_category === filters.category` is tested; the secondary
category is never consulted. -/
def analystCategoryFilter (category : String) (quotes : List Item) :
    List Item :=
  if category ≠ "" ∧ category ≠ "all" then
    quotes.filter fun quote => quote.primary_category == some category
  else quotes

/-- Search predicate of AnalystQuotes (lines 92-96):
`quote.content.toLowerCase().includes(query) ||
 quote.analyst_name.toLowerCase().includes(query) ||
 quote.organization.toLowerCase().includes(query)`.
There is no optional chaining: calling toLowerCase on a missing field throws
a TypeError, modelled as none; the short-circuit of `||` decides which field
accesses are reached. -/
def quoteMatchesQuery (query : String) (quote : Item) : Option Bool :=
  match quote.content with
  | none => none
  | some c =>
    if jsIncludes (lowerStr c) query then some true
    else
      match quote.analyst_name with
      | none => none
      | some n =>
        if jsIncludes (lowerStr n) query then some true
        else
          match quote.organization with
          | none => none
          | some o => some (jsIncludes (lowerStr o) query)

/-- `Array.prototype.filter` with a predicate that may throw: the first
element on which the predicate throws aborts the whole pass. -/
def filterE {α : Type} (p : α → Option Bool) : List α → Option (List α)
  | [] => some []
  | x :: xs =>
    match p x, filterE p xs with
    | none, _ => none
    | some _, none => none
    | some b, some rest => some (if b then x :: rest else rest)

/-- Search filter step of AnalystQuotes (lines 90-97): run only when the
query is truthy, over the lower-cased query. -/
def analystSearchFilter (searchQuery : String) (quotes : List Item) :
    Option (List Item) :=
  if searchQuery ≠ "" then
    filterE (quoteMatchesQuery (lowerStr searchQuery)) quotes
  else some quotes

/-- The AnalystQuotes pipeline (lines 80-108) with the collection abstracted:
category filter, fallible search filter, stable descending sort, then
`slice(0, limit)`.  A thrown TypeError in the search step yields none. -/
def analystApply (filters : FilterCriteria) (quotes : List Item)
    (limit : Nat) : Option (List Item) :=
  match analystSearchFilter filters.searchQuery
    (analystCategoryFilter filters.category quotes) with
  | none => none
  | some l => some ((sortByScoreDesc l).take limit)

/-- Date-window step of ConflictCharts.js (lines 73-94): the end index is the
last element, the start index is `endIndex - k` for the three handled range
keys (any other key, including "90d" and "1y", leaves it at zero), clamped to
zero, and the series is `slice(startIndex, endIndex + 1)`. -/
def windowSlice {α : Type} (dateRange : String) (xs : List α) : List α :=
  let endIndex : Int := (xs.length : Int) - 1
  let rawStart : Int :=
    if dateRange = "1d" then endIndex - 1
    else if dateRange = "7d" then endIndex - 7
    else if dateRange = "30d" then endIndex - 30
    else 0
  let startIndex : Int := max 0 rawStart
  (xs.take (endIndex + 1).toNat).drop startIndex.toNat

/-- A conflict hotspot of GeographicMap, with its (longitude, latitude)
coordinate pair. -/
structure Hotspot where
  name : String
  coordinates : ℚ × ℚ
  intensity : ℚ
  category : String
deriving DecidableEq

/-- The per-region reference coordinates of GeographicMap (lines 48-54);
lookup of an unknown region key yields undefined, i.e. none. -/
def regionCoordinates (region : String) : Option (ℚ × ℚ) :=
  if region = "us" then some (-98.5795, 39.8283)
  else if region = "europe" then some (10.4515, 51.1657)
  else if region = "asia" then some (100.6197, 34.0479)
  else if region = "middle_east" then some (53.4949, 29.3721)
  else if region = "latin_america" then some (-78.6569, -20.7177)
  else none

/-- Squared Euclidean distance between two coordinate pairs in raw degree
units. -/
def distSq (a b : ℚ × ℚ) : ℚ :=
  (a.1 - b.1) ^ 2 + (a.2 - b.2) ^ 2

/-- The hotspot proximity test of GeographicMap (lines 59-66):
`Math.sqrt((dx)^2 + (dy)^2) < 50`.  Since the square root is monotone and
both sides are nonnegative, this is equivalent to comparing the squared
distance against 2500, which keeps the embedding inside the rationals. -/
def withinRegion (center : ℚ × ℚ) (h : Hotspot) : Bool :=
  decide (distSq h.coordinates center < 2500)

/-- Region filter step of GeographicMap (lines 44-68): applied only when the
region is truthy, not "global", and has a reference coordinate. -/
def regionFilter (region : String) (hotspots : List Hotspot) : List Hotspot :=
  if region ≠ "" ∧ region ≠ "global" then
    match regionCoordinates region with
    | some center => hotspots.filter (withinRegion center)
    | none => hotspots
  else hotspots

/-- One chart.js dataset of the ConflictCharts line chart. -/
structure ChartDataset where
  label : String
  data : List ℚ
  borderColor : String
deriving DecidableEq

/-- The category color mapping defined identically in NewsFeed.js,
AnalystQuotes and GeographicMap (switch with a grey default). -/
def getCategoryColor (category : String) : String :=
  if category = "internal_conflict" then "#f44336"
  else if category = "external_conflict" then "#2196f3"
  else if category = "economic_indicators" then "#4caf50"
  else "#9e9e9e"

/-- Series builder of ConflictCharts.js (lines 105-134): one conditional push
per known category; a series is pushed exactly when the selected category is
"all" or that category.  The bar-chart builder at lines 147-170 repeats the
same inclusion structure. -/
def buildConflictDatasets (category : String)
    (internal external economic : List ℚ) : List ChartDataset :=
  (if category = "all" ∨ category = "internal_conflict" then
      [{ label := "Internal Conflict", data := internal,
         borderColor := "#f44336" }]
    else []) ++
  (if category = "all" ∨ category = "external_conflict" then
      [{ label := "External Conflict", data := external,
         borderColor := "#2196f3" }]
    else []) ++
  (if category = "all" ∨ category = "economic_indicators" then
      [{ label := "Economic Indicators", data := economic,
         borderColor := "#4caf50" }]
    else [])

/-- Search rule as the spec words it, for comparison with the code: the
searchable text is the title, falling back to content for items without a
title, plus analyst name and organization where present; the item matches
when the lower-cased query occurs in one of those lower-cased fields. -/
def specSearchMatches (searchQuery : String) (item : Item) : Bool :=
  let q := lowerStr searchQuery
  (match item.title with
   | some t => jsIncludes (lowerStr t) q
   | none =>
     match item.content with
     | some c => jsIncludes (lowerStr c) q
     | none => false) ||
  (match item.analyst_name with
   | some n => jsIncludes (lowerStr n) q
   | none => false) ||
  (match item.organization with
   | some o => jsIncludes (lowerStr o) q
   | none => false)

/-- Test fixture: an article whose title matches "tariffs" and whose
secondary category is economic_indicators while the primary is
external_conflict. -/
def itemA : Item :=
  { id := 1, title := some "Tariffs Rise", content := some "trade news",
    analyst_name := none, organization := none,
    published_date := some "2023-06-15T10:30:00Z", date := none,
    primary_category := some "external_conflict",
    secondary_category := some "economic_indicators",
    priority_score := some 85 }

/-- Test fixture: an internal-conflict article with a lower score. -/
def itemB : Item :=
  { id := 2, title := some "Protests Grow", content := some "city news",
    analyst_name := none, organization := none,
    published_date := some "2023-06-14T14:45:00Z", date := none,
    primary_category := some "internal_conflict",
    secondary_category := none, priority_score := some 78 }

/-- Test fixture: two items sharing one priority score, for the stability
witness. -/
def itemC : Item :=
  { id := 3, title := some "First Tie", content := none,
    analyst_name := none, organization := none,
    published_date := none, date := none,
    primary_category := some "internal_conflict",
    secondary_category := none, priority_score := some 50 }

/-- Test fixture: the second item of the tied pair. -/
def itemD : Item :=
  { id := 4, title := some "Second Tie", content := none,
    analyst_name := none, organization := none,
    published_date := none, date := none,
    primary_category := some "external_conflict",
    secondary_category := none, priority_score := some 50 }

/-- Test fixture: an analyst-quote item carrying a secondary category. -/
def quoteX : Item :=
  { id := 10, title := none, content := some "short comment",
    analyst_name := some "Jane Roe", organization := some "Macro Lab",
    published_date := none, date := some "2023-06-13T14:20:00Z",
    primary_category := some "external_conflict",
    secondary_category := some "economic_indicators",
    priority_score := some 50 }

/-- Test fixture: an article whose title misses the query but whose content
contains it. -/
def itemE : Item :=
  { id := 11, title := some "Central Banks Signal Shift",
    content := some "new tariffs loom", analyst_name := none,
    organization := none, published_date := none, date := none,
    primary_category := some "economic_indicators",
    secondary_category := none, priority_score := some 70 }

/-- Test fixture: a quote with no content field, which makes the analyst
search predicate throw. -/
def badQuote : Item :=
  { id := 12, title := none, content := none,
    analyst_name := some "Bob Poe", organization := some "Org",
    published_date := none, date := none,
    primary_category := some "internal_conflict",
    secondary_category := none, priority_score := some 10 }

/-- Test fixture: an item with neither title nor content. -/
def noTextItem : Item :=
  { id := 13, title := none, content := none,
    analyst_name := none, organization := none,
    published_date := none, date := none,
    primary_category := none, secondary_category := none,
    priority_score := none }

/-- Test fixture: the default filter state of Dashboard.js. -/
def critAll : FilterCriteria :=
  { category := "all", dateRange := "7d", searchQuery := "",
    region := "global", dataType := none, startDate := none,
    endDate := none }

/-- Test fixture: the default state with a specific category selected. -/
def critInternal : FilterCriteria :=
  { category := "internal_conflict", dateRange := "7d", searchQuery := "",
    region := "global", dataType := none, startDate := none,
    endDate := none }

/-- Test fixture: criteria with a search query that matches nothing. -/
def critQuery : FilterCriteria :=
  { category := "all", dateRange := "7d", searchQuery := "zzz",
    region := "global", dataType := none, startDate := none,
    endDate := none }

/-- Test fixture: criteria differing from the default only in dateRange,
region and the custom date fields. -/
def critOther : FilterCriteria :=
  { category := "all", dateRange := "1y", searchQuery := "",
    region := "us", dataType := none, startDate := some 0,
    endDate := some 86400 }

/-- Test fixture: the mock hotspot sitting exactly at the US reference
coordinate. -/
def usHotspot : Hotspot :=
  { name := "US Political Polarization",
    coordinates := (-98.5795, 39.8283), intensity := 65,
    category := "internal_conflict" }

/-! ### Helper lemmas -/

theorem leadMatch_iff (q s : List Char) :
    leadMatch q s = true ↔ ∃ v, s = q ++ v := by
  induction q generalizing s with
  | nil => simp only [leadMatch, List.nil_append, true_iff]; exact ⟨s, rfl⟩
  | cons a as ih =>
    cases s with
    | nil => simp [leadMatch]
    | cons b bs =>
      simp only [leadMatch, Bool.and_eq_true, beq_iff_eq, ih,
        List.cons_append, List.cons.injEq]
      constructor
      · rintro ⟨rfl, v, rfl⟩
        exact ⟨v, rfl, rfl⟩
      · rintro ⟨v, rfl, rfl⟩
        exact ⟨rfl, v, rfl⟩

theorem hasRun_iff (q s : List Char) :
    hasRun q s = true ↔ ∃ u v, s = u ++ q ++ v := by
  induction s with
  | nil =>
    simp only [hasRun, List.isEmpty_iff]
    constructor
    · rintro rfl
      exact ⟨[], [], rfl⟩
    · rintro ⟨u, v, h⟩
      rcases List.append_eq_nil.mp h.symm with ⟨huq, -⟩
      exact (List.append_eq_nil.mp huq).2
  | cons b bs ih =>
    simp only [hasRun, Bool.or_eq_true, leadMatch_iff, ih]
    constructor
    · rintro (⟨v, h⟩ | ⟨u, v, h⟩)
      · exact ⟨[], v, by simp [h]⟩
      · exact ⟨b :: u, v, by simp [h]⟩
    · rintro ⟨u, v, h⟩
      cases u with
      | nil =>
        exact Or.inl ⟨v, by simpa using h⟩
      | cons c cs =>
        rcases List.cons.injEq .. ▸ h with ⟨-, h2⟩
        exact Or.inr ⟨cs, v, by simpa using h2⟩

theorem jsIncludes_iff (s q : String) :
    jsIncludes s q = true ↔ SubstringOf q s :=
  hasRun_iff q.data s.data

theorem scoreLe_refl (x : Item) : scoreLe x x = true := by
  unfold scoreLe
  cases x.priority_score <;> simp

theorem scoreLe_total {x y : Item} (h : scoreLe x y = false) :
    scoreLe y x = true := by
  unfold scoreLe at *
  cases hx : x.priority_score with
  | none => simp [hx] at h
  | some a =>
    cases hy : y.priority_score with
    | none => simp [hx, hy] at h
    | some b =>
      simp only [hx, hy, decide_eq_false_iff_not, not_le] at h
      simp [hx, hy, le_of_lt h]

theorem mem_insertDesc {x a : Item} {l : List Item} :
    x ∈ insertDesc a l ↔ x = a ∨ x ∈ l := by
  induction l with
  | nil => simp [insertDesc]
  | cons y ys ih =>
    by_cases h : scoreLe a y = true
    · simp [insertDesc, h]
    · simp only [insertDesc, if_neg h, List.mem_cons, ih]
      tauto

theorem length_insertDesc (a : Item) (l : List Item) :
    (insertDesc a l).length = l.length + 1 := by
  induction l with
  | nil => rfl
  | cons y ys ih =>
    by_cases h : scoreLe a y = true
    · simp [insertDesc, h]
    · simp [insertDesc, if_neg h, ih]

theorem mem_sortByScoreDesc {x : Item} {l : List Item} :
    x ∈ sortByScoreDesc l ↔ x ∈ l := by
  induction l with
  | nil => simp [sortByScoreDesc]
  | cons y ys ih =>
    show x ∈ insertDesc y (sortByScoreDesc ys) ↔ _
    rw [mem_insertDesc]
    simp [ih]

theorem length_sortByScoreDesc (l : List Item) :
    (sortByScoreDesc l).length = l.length := by
  induction l with
  | nil => rfl
  | cons y ys ih =>
    show (insertDesc y (sortByScoreDesc ys)).length = _
    rw [length_insertDesc, ih]
    rfl
theorem scoreLe_of_eq_score {a y : Item}
    (h : a.priority_score = y.priority_score) : scoreLe a y = true := by
  unfold scoreLe
  rw [h]
  cases y.priority_score <;> simp

theorem filter_insertDesc (v : Option ℚ) (a : Item) (l : List Item) :
    (insertDesc a l).filter (fun x => x.priority_score == v)
      = if a.priority_score == v then
          a :: l.filter (fun x => x.priority_score == v)
        else l.filter (fun x => x.priority_score == v) := by
  induction l with
  | nil => simp only [insertDesc, List.filter_cons, List.filter_nil]
  | cons y ys ih =>
    by_cases hle : scoreLe a y = true
    · simp [insertDesc, hle, List.filter_cons]
    · simp only [insertDesc, if_neg hle, List.filter_cons, ih]
      by_cases hpa : (a.priority_score == v) = true
      · by_cases hpy : (y.priority_score == v) = true
        · exfalso
          apply hle
          have ha := beq_iff_eq.mp hpa
          have hb := beq_iff_eq.mp hpy
          exact scoreLe_of_eq_score (ha.trans hb.symm)
        · simp [hpa, hpy]
      · simp [hpa]

theorem filter_sortByScoreDesc (v : Option ℚ) (l : List Item) :
    (sortByScoreDesc l).filter (fun x => x.priority_score == v)
      = l.filter (fun x => x.priority_score == v) := by
  induction l with
  | nil => rfl
  | cons y ys ih =>
    show (insertDesc y (sortByScoreDesc ys)).filter _ = _
    rw [filter_insertDesc, ih, List.filter_cons]

theorem pairwise_insertDesc {a : Item} {l : List Item}
    (hpres : ∀ x ∈ a :: l, x.priority_score ≠ none)
    (hl : l.Pairwise (fun u w => scoreLe u w = true)) :
    (insertDesc a l).Pairwise (fun u w => scoreLe u w = true) := by
  induction l with
  | nil => simp [insertDesc]
  | cons y ys ih =>
    rcases List.pairwise_cons.mp hl with ⟨hy, hys⟩
    by_cases hle : scoreLe a y = true
    · simp only [insertDesc, if_pos hle]
      refine List.pairwise_cons.mpr ⟨?_, hl⟩
      intro z hz
      rcases List.mem_cons.mp hz with rfl | hz'
      · exact hle
      · obtain ⟨sa, hsa⟩ :=
          Option.ne_none_iff_exists'.mp (hpres a (by simp))
        obtain ⟨sy, hsy⟩ :=
          Option.ne_none_iff_exists'.mp (hpres y (by simp))
        obtain ⟨sz, hsz⟩ :=
          Option.ne_none_iff_exists'.mp (hpres z (by simp [hz']))
        have h1 : sy ≤ sa := by simpa [scoreLe, hsa, hsy] using hle
        have h2 : sz ≤ sy := by simpa [scoreLe, hsy, hsz] using hy z hz'
        simp [scoreLe, hsa, hsz, le_trans h2 h1]
    · simp only [insertDesc, if_neg hle]
      refine List.pairwise_cons.mpr ⟨?_, ?_⟩
      · intro z hz
        rcases mem_insertDesc.mp hz with rfl | hz'
        · exact scoreLe_total (by simpa using hle)
        · exact hy z hz'
      · refine ih ?_ hys
        intro x hx
        rcases List.mem_cons.mp hx with rfl | hx'
        · exact hpres x (by simp)
        · exact hpres x (by simp [hx'])

theorem pairwise_sortByScoreDesc {l : List Item}
    (hpres : ∀ x ∈ l, x.priority_score ≠ none) :
    (sortByScoreDesc l).Pairwise (fun u w => scoreLe u w = true) := by
  induction l with
  | nil => simp [sortByScoreDesc]
  | cons y ys ih =>
    show (insertDesc y (sortByScoreDesc ys)).Pairwise _
    refine pairwise_insertDesc ?_ (ih fun x hx => hpres x (by simp [hx]))
    intro x hx
    rcases List.mem_cons.mp hx with rfl | hx'
    · exact hpres x (by simp)
    · exact hpres x (by simp [mem_sortByScoreDesc.mp hx'])

theorem insertDesc_eq_cons {a : Item} {z t : List Item}
    (h : insertDesc a z = a :: t) : z = t := by
  cases z with
  | nil =>
    simp only [insertDesc, List.cons.injEq] at h
    exact h.2
  | cons w ws =>
    by_cases hle : scoreLe a w = true
    · simp only [insertDesc, if_pos hle, List.cons.injEq] at h
      exact h.2
    · simp only [insertDesc, if_neg hle, List.cons.injEq] at h
      exact absurd (scoreLe_refl a) (h.1 ▸ hle)

theorem head_le_of_insertDesc_cons {y w : Item} {ws t : List Item}
    (h : insertDesc y (w :: ws) = y :: t) : scoreLe y w = true := by
  by_contra hyw
  simp only [insertDesc, if_neg hyw, List.cons.injEq] at h
  exact absurd (scoreLe_refl y) (h.1 ▸ hyw)

theorem fix_tail {y : Item} {t : List Item}
    (h : sortByScoreDesc (y :: t) = y :: t) :
    sortByScoreDesc t = t ∧ insertDesc y t = y :: t := by
  have h' : insertDesc y (sortByScoreDesc t) = y :: t := h
  have ht : sortByScoreDesc t = t := insertDesc_eq_cons h'
  rw [ht] at h'
  exact ⟨ht, h'⟩

theorem fix_insertDesc {s : List Item}
    (hs : sortByScoreDesc s = s) (x : Item) :
    sortByScoreDesc (insertDesc x s) = insertDesc x s := by
  induction s with
  | nil => rfl
  | cons y t ih =>
    obtain ⟨ht, hyt⟩ := fix_tail hs
    by_cases hle : scoreLe x y = true
    · simp only [insertDesc, if_pos hle]
      show insertDesc x (sortByScoreDesc (y :: t)) = x :: y :: t
      rw [hs]
      simp [insertDesc, hle]
    · simp only [insertDesc, if_neg hle]
      show insertDesc y (sortByScoreDesc (insertDesc x t)) = y :: insertDesc x t
      rw [ih ht]
      cases htc : t with
      | nil =>
        have hyx := scoreLe_total (by simpa using hle)
        simp [insertDesc, hyx]
      | cons w ws =>
        rw [htc] at hyt
        have hyw := head_le_of_insertDesc_cons hyt
        by_cases hxw : scoreLe x w = true
        · have hyx := scoreLe_total (by simpa using hle)
          simp [insertDesc, hxw, hyx]
        · simp [insertDesc, hxw, hyw]

theorem sortByScoreDesc_idem (l : List Item) :
    sortByScoreDesc (sortByScoreDesc l) = sortByScoreDesc l := by
  induction l with
  | nil => rfl
  | cons y t ih =>
    show sortByScoreDesc (insertDesc y (sortByScoreDesc t))
      = insertDesc y (sortByScoreDesc t)
    exact fix_insertDesc ih y

theorem fix_take {s : List Item}
    (hs : sortByScoreDesc s = s) (n : Nat) :
    sortByScoreDesc (s.take n) = s.take n := by
  induction s generalizing n with
  | nil => simp [sortByScoreDesc]
  | cons y t ih =>
    obtain ⟨ht, hyt⟩ := fix_tail hs
    cases n with
    | zero => rfl
    | succ m =>
      rw [List.take_succ_cons]
      show insertDesc y (sortByScoreDesc (t.take m)) = y :: t.take m
      rw [ih ht]
      cases htc : t with
      | nil => simp [insertDesc]
      | cons w ws =>
        cases m with
        | zero => simp [insertDesc]
        | succ k =>
          rw [htc] at hyt
          have hyw := head_le_of_insertDesc_cons hyt
          simp [List.take_succ_cons, insertDesc, hyw]
theorem filterE_eq_some {α : Type} {p : α → Option Bool} :
    ∀ {xs l : List α}, filterE p xs = some l →
      l = xs.filter fun a => p a == some true := by
  intro xs
  induction xs with
  | nil =>
    intro l h
    simp only [filterE, Option.some.injEq] at h
    simp [← h]
  | cons x xs ih =>
    intro l h
    cases hp : p x with
    | none => simp [filterE, hp] at h
    | some b =>
      cases hr : filterE p xs with
      | none => simp [filterE, hp, hr] at h
      | some rest =>
        simp only [filterE, hp, hr, Option.some.injEq] at h
        rw [List.filter_cons, ← ih hr, ← h]
        cases b <;> simp [hp]

theorem filterE_isSome_forall {α : Type} {p : α → Option Bool} :
    ∀ {xs l : List α}, filterE p xs = some l → ∀ a ∈ xs, (p a).isSome := by
  intro xs
  induction xs with
  | nil => intro l _ a ha; cases ha
  | cons x xs ih =>
    intro l h a ha
    cases hp : p x with
    | none => simp [filterE, hp] at h
    | some b =>
      cases hr : filterE p xs with
      | none => simp [filterE, hp, hr] at h
      | some rest =>
        rcases List.mem_cons.mp ha with rfl | ha'
        · simp [hp]
        · exact ih hr a ha'

theorem quoteMatchesQuery_all_present {query : String} {x : Item}
    {c n o : String} (hc : x.content = some c) (hn : x.analyst_name = some n)
    (ho : x.organization = some o) :
    quoteMatchesQuery query x =
      some (jsIncludes (lowerStr c) query || jsIncludes (lowerStr n) query ||
        jsIncludes (lowerStr o) query) := by
  simp only [quoteMatchesQuery, hc, hn, ho]
  by_cases h1 : jsIncludes (lowerStr c) query = true
  · simp [h1]
  · by_cases h2 : jsIncludes (lowerStr n) query = true
    · simp [h1, h2]
    · simp [h1, h2]

theorem mem_newsCategoryFilter {category : String} {items : List Item}
    {x : Item} (h1 : category ≠ "") (h2 : category ≠ "all") :
    x ∈ newsCategoryFilter category items ↔
      x ∈ items ∧ (x.primary_category = some category ∨
        x.secondary_category = some category) := by
  unfold newsCategoryFilter
  rw [if_pos ⟨h1, h2⟩, List.mem_filter]
  simp

theorem mem_analystCategoryFilter {category : String} {items : List Item}
    {x : Item} (h1 : category ≠ "") (h2 : category ≠ "all") :
    x ∈ analystCategoryFilter category items ↔
      x ∈ items ∧ x.primary_category = some category := by
  unfold analystCategoryFilter
  rw [if_pos ⟨h1, h2⟩, List.mem_filter]
  simp

theorem newsCategoryFilter_all (items : List Item) :
    newsCategoryFilter "all" items = items := by
  simp [newsCategoryFilter]

theorem analystCategoryFilter_all (items : List Item) :
    analystCategoryFilter "all" items = items := by
  simp [analystCategoryFilter]

theorem newsCategoryFilter_subset {category : String} {items : List Item} :
    ∀ x ∈ newsCategoryFilter category items, x ∈ items := by
  unfold newsCategoryFilter
  split
  · exact fun x hx => (List.mem_filter.mp hx).1
  · exact fun x hx => hx

theorem analystCategoryFilter_subset {category : String} {items : List Item} :
    ∀ x ∈ analystCategoryFilter category items, x ∈ items := by
  unfold analystCategoryFilter
  split
  · exact fun x hx => (List.mem_filter.mp hx).1
  · exact fun x hx => hx

theorem newsSearchFilter_subset {q : String} {items : List Item} :
    ∀ x ∈ newsSearchFilter q items, x ∈ items := by
  unfold newsSearchFilter
  split
  · exact fun x hx => (List.mem_filter.mp hx).1
  · exact fun x hx => hx

theorem mem_newsSearchFilter {q : String} {items : List Item} {x : Item}
    (hq : q ≠ "") :
    x ∈ newsSearchFilter q items ↔
      x ∈ items ∧ newsMatchesQuery (lowerStr q) x = true := by
  unfold newsSearchFilter
  rw [if_pos hq, List.mem_filter]

theorem newsSearchFilter_mono {q : String} {l l' : List Item}
    (hsub : ∀ x ∈ l, x ∈ l') :
    ∀ x ∈ newsSearchFilter q l, x ∈ newsSearchFilter q l' := by
  intro x
  unfold newsSearchFilter
  split
  · rw [List.mem_filter, List.mem_filter]
    exact fun hx => ⟨hsub x hx.1, hx.2⟩
  · exact hsub x

theorem newsMatchesQuery_iff {q : String} {x : Item} :
    newsMatchesQuery q x = true ↔
      (∃ t, x.title = some t ∧ SubstringOf q (lowerStr t)) ∨
      (∃ c, x.content = some c ∧ SubstringOf q (lowerStr c)) := by
  unfold newsMatchesQuery
  rw [Bool.or_eq_true]
  cases ht : x.title <;> cases hc : x.content <;>
    simp [ht, hc, jsIncludes_iff]

theorem newsApply_idem (c : FilterCriteria) (items : List Item) (N : Nat) :
    newsApply c (newsApply c items N) N = newsApply c items N := by
  have hcs :
      newsApply c items N =
        (sortByScoreDesc (newsSearchFilter c.searchQuery
          (newsCategoryFilter c.category items))).take N := rfl
  set inner :=
    newsSearchFilter c.searchQuery (newsCategoryFilter c.category items)
    with hinner
  set R := (sortByScoreDesc inner).take N with hRdef
  have hsub : ∀ x ∈ R, x ∈ inner := by
    intro x hx
    exact mem_sortByScoreDesc.mp (List.mem_of_mem_take hx)
  have h1 : newsCategoryFilter c.category R = R := by
    unfold newsCategoryFilter
    split
    · rename_i hcond
      apply List.filter_eq_self.mpr
      intro a ha
      have hmem : a ∈ newsCategoryFilter c.category items :=
        newsSearchFilter_subset a (hsub a ha)
      unfold newsCategoryFilter at hmem
      rw [if_pos hcond] at hmem
      exact (List.mem_filter.mp hmem).2
    · rfl
  have h2 : newsSearchFilter c.searchQuery R = R := by
    unfold newsSearchFilter
    split
    · rename_i hcond
      apply List.filter_eq_self.mpr
      intro a ha
      have hmem : a ∈ inner := hsub a ha
      rw [hinner] at hmem
      unfold newsSearchFilter at hmem
      rw [if_pos hcond] at hmem
      exact (List.mem_filter.mp hmem).2
    · rfl
  have h3 : sortByScoreDesc R = R := by
    rw [hRdef]
    exact fix_take (sortByScoreDesc_idem inner) N
  have h4 : R.take N = R := by
    rw [hRdef, List.take_take, min_self]
  show (sortByScoreDesc (newsSearchFilter c.searchQuery
    (newsCategoryFilter c.category R))).take N = R
  rw [h1, h2, h3, h4]
/-! ### Claim theorems -/

/-- Claim C1, counterexample to the frozen statement: the analyst-quote
category filter (AnalystQuotes lines 82-88) compares only primaryCategory, so
an item whose secondaryCategory equals the selected category is dropped there,
against the claimed union match. -/
theorem c1_counterexample :
    quoteX.secondary_category = some "economic_indicators" ∧
      analystCategoryFilter "economic_indicators" [quoteX] = [] :=
  ⟨rfl, by decide⟩

/-- Claim C1 (amended): for a non-empty selected category other than "all",
the news/article category filter retains exactly the items whose primary OR
secondary category equals it (union match), while the analyst-quote category
filter retains exactly the items whose primary category equals it; with
category "all" both steps retain every item. -/
theorem c1_category_filter (category : String) (items : List Item) (x : Item)
    (h1 : category ≠ "") (h2 : category ≠ "all") :
    (x ∈ newsCategoryFilter category items ↔
      x ∈ items ∧ (x.primary_category = some category ∨
        x.secondary_category = some category)) ∧
    (x ∈ analystCategoryFilter category items ↔
      x ∈ items ∧ x.primary_category = some category) ∧
    newsCategoryFilter "all" items = items ∧
    analystCategoryFilter "all" items = items :=
  ⟨mem_newsCategoryFilter h1 h2, mem_analystCategoryFilter h1 h2,
    newsCategoryFilter_all items, analystCategoryFilter_all items⟩

/-- Witness for C1: the item with primary external_conflict and secondary
economic_indicators passes the news category filter for economic_indicators. -/
theorem c1_category_filter_witness :
    itemA ∈ newsCategoryFilter "economic_indicators" [itemA] :=
  (c1_category_filter "economic_indicators" [itemA] itemA (by decide)
    (by decide)).1.mpr ⟨by decide, Or.inr rfl⟩

/-- Claim C2, counterexample to the frozen statement: the news search filter
retains an item whose title misses the query but whose content contains it,
while the spec-worded rule (title as the searchable text whenever a title is
present) rejects the same item, so the code is not the claimed
title-with-content-fallback rule. -/
theorem c2_counterexample :
    newsSearchFilter "tariffs" [itemE] = [itemE] ∧
      specSearchMatches "tariffs" itemE = false :=
  ⟨by decide, by decide⟩

/-- Claim C2 (amended): for a non-empty query, the news pipeline retains an
item iff the lower-cased query is a substring of the lower-cased title OR of
the lower-cased content, each disjunct failing silently when its field is
missing and analyst name/organization never being consulted; the analyst
pipeline, when its search filter returns without throwing on a collection
whose quotes carry content, analyst name and organization, retains a quote
iff the query occurs in its content, analyst name or organization. -/
theorem c2_search_filter (query : String) (items : List Item) (x : Item)
    (hq : query ≠ "") :
    (x ∈ newsSearchFilter query items ↔
      x ∈ items ∧
        ((∃ t, x.title = some t ∧
            SubstringOf (lowerStr query) (lowerStr t)) ∨
         (∃ c, x.content = some c ∧
            SubstringOf (lowerStr query) (lowerStr c)))) ∧
    (∀ l, analystSearchFilter query items = some l →
      (∀ a ∈ items, ∃ ca na oa, a.content = some ca ∧
        a.analyst_name = some na ∧ a.organization = some oa) →
      (x ∈ l ↔ x ∈ items ∧
        ((∃ c, x.content = some c ∧
            SubstringOf (lowerStr query) (lowerStr c)) ∨
         (∃ n, x.analyst_name = some n ∧
            SubstringOf (lowerStr query) (lowerStr n)) ∨
         (∃ o, x.organization = some o ∧
            SubstringOf (lowerStr query) (lowerStr o))))) := by
  constructor
  · rw [mem_newsSearchFilter hq, newsMatchesQuery_iff]
  · intro l hl hall
    unfold analystSearchFilter at hl
    rw [if_pos hq] at hl
    rw [filterE_eq_some hl, List.mem_filter]
    constructor
    · rintro ⟨hmem, hp⟩
      obtain ⟨ca, na, oa, hca, hna, hoa⟩ := hall x hmem
      rw [quoteMatchesQuery_all_present hca hna hoa] at hp
      have hb : (jsIncludes (lowerStr ca) (lowerStr query) ||
          jsIncludes (lowerStr na) (lowerStr query) ||
          jsIncludes (lowerStr oa) (lowerStr query)) = true := by
        simpa using hp
      refine ⟨hmem, ?_⟩
      have hb2 : jsIncludes (lowerStr ca) (lowerStr query) = true ∨
          jsIncludes (lowerStr na) (lowerStr query) = true ∨
          jsIncludes (lowerStr oa) (lowerStr query) = true := by
        simpa [Bool.or_eq_true, or_assoc] using hb
      rcases hb2 with hcq | hnq | hoq
      · exact Or.inl ⟨ca, hca, (jsIncludes_iff _ _).mp hcq⟩
      · exact Or.inr (Or.inl ⟨na, hna, (jsIncludes_iff _ _).mp hnq⟩)
      · exact Or.inr (Or.inr ⟨oa, hoa, (jsIncludes_iff _ _).mp hoq⟩)
    · rintro ⟨hmem, hdis⟩
      obtain ⟨ca, na, oa, hca, hna, hoa⟩ := hall x hmem
      refine ⟨hmem, ?_⟩
      rw [quoteMatchesQuery_all_present hca hna hoa]
      have hb : (jsIncludes (lowerStr ca) (lowerStr query) ||
          jsIncludes (lowerStr na) (lowerStr query) ||
          jsIncludes (lowerStr oa) (lowerStr query)) = true := by
        rcases hdis with ⟨c, hc, hsubq⟩ | ⟨n, hn, hsubq⟩ | ⟨o, ho, hsubq⟩
        · rw [hca] at hc
          cases Option.some.inj hc
          simp [(jsIncludes_iff _ _).mpr hsubq]
        · rw [hna] at hn
          cases Option.some.inj hn
          simp [(jsIncludes_iff _ _).mpr hsubq]
        · rw [hoa] at ho
          cases Option.some.inj ho
          simp [(jsIncludes_iff _ _).mpr hsubq]
      rw [hb]
      rfl

/-- Witness for C2: "tariffs" matches an item whose title contains "Tariffs"
(case-insensitive substring), which is retained by the news search filter. -/
theorem c2_search_filter_witness :
    itemA ∈ newsSearchFilter "tariffs" [itemA] :=
  (c2_search_filter "tariffs" [itemA] itemA (by decide)).1.mpr
    ⟨by decide,
     Or.inl ⟨"Tariffs Rise", rfl, (jsIncludes_iff _ _).mp (by decide)⟩⟩

/-- Claim C3, counterexample to the frozen statement: for dateRange "1d" the
chart window keeps the last TWO samples of a three-sample series, not the
claimed single latest sample, because the code slices from endIndex - 1
through endIndex inclusive. -/
theorem c3_counterexample :
    windowSlice "1d" ([0, 1, 2] : List ℚ) = [1, 2] ∧
      windowSlice "1d" ([0, 1, 2] : List ℚ) ≠ [2] :=
  ⟨by decide, by decide⟩

/-- Claim C3 (amended): the chart window keeps the last k+1 samples (clamped
to the whole series) for the handled keys, k = 1 for "1d", 7 for "7d", 30 for
"30d"; the keys "90d" and "1y" have no branch, leave the start index at zero
and keep the entire series. -/
theorem c3_window (xs : List ℚ) :
    windowSlice "1d" xs = xs.drop (xs.length - 2) ∧
    windowSlice "7d" xs = xs.drop (xs.length - 8) ∧
    windowSlice "30d" xs = xs.drop (xs.length - 31) ∧
    windowSlice "90d" xs = xs ∧
    windowSlice "1y" xs = xs := by
  have h1 : ((xs.length : Int) - 1 + 1).toNat = xs.length := by omega
  refine ⟨?_, ?_, ?_, ?_, ?_⟩
  · show (xs.take ((xs.length : Int) - 1 + 1).toNat).drop
        (max 0 ((xs.length : Int) - 1 - 1)).toNat = xs.drop (xs.length - 2)
    have h2 : (max 0 ((xs.length : Int) - 1 - 1)).toNat = xs.length - 2 := by
      omega
    rw [h1, h2, List.take_length]
  · show (xs.take ((xs.length : Int) - 1 + 1).toNat).drop
        (max 0 ((xs.length : Int) - 1 - 7)).toNat = xs.drop (xs.length - 8)
    have h2 : (max 0 ((xs.length : Int) - 1 - 7)).toNat = xs.length - 8 := by
      omega
    rw [h1, h2, List.take_length]
  · show (xs.take ((xs.length : Int) - 1 + 1).toNat).drop
        (max 0 ((xs.length : Int) - 1 - 30)).toNat = xs.drop (xs.length - 31)
    have h2 : (max 0 ((xs.length : Int) - 1 - 30)).toNat = xs.length - 31 := by
      omega
    rw [h1, h2, List.take_length]
  · show (xs.take ((xs.length : Int) - 1 + 1).toNat).drop
        ((max 0 0 : Int)).toNat = xs
    rw [h1, List.take_length]
    simp
  · show (xs.take ((xs.length : Int) - 1 + 1).toNat).drop
        ((max 0 0 : Int)).toNat = xs
    rw [h1, List.take_length]
    simp
theorem newsSearchFilter_length_le (q : String) (l : List Item) :
    (newsSearchFilter q l).length ≤ l.length := by
  unfold newsSearchFilter
  split
  · exact List.length_filter_le _ _
  · exact Nat.le_refl _

/-- Claim C4: the rank step sorts descending by priorityScore with a stable
sort — on a list whose items all carry a priority score the output is
pairwise descending under the comparator, and for every score value the
subsequence of items holding that value equals the corresponding subsequence
of the input, i.e. ties keep their relative input order. -/
theorem c4_rank_stability (l : List Item)
    (hpres : ∀ x ∈ l, x.priority_score ≠ none) :
    (sortByScoreDesc l).Pairwise (fun a b => scoreLe a b = true) ∧
    ∀ v : Option ℚ,
      (sortByScoreDesc l).filter (fun x => x.priority_score == v)
        = l.filter (fun x => x.priority_score == v) :=
  ⟨pairwise_sortByScoreDesc hpres, fun v => filter_sortByScoreDesc v l⟩

/-- Witness for C4: two items tied at score 50 keep their input order inside
the sorted output. -/
theorem c4_rank_stability_witness :
    (sortByScoreDesc [itemC, itemD]).filter
      (fun x => x.priority_score == some 50) = [itemC, itemD] := by
  have h := (c4_rank_stability [itemC, itemD] (by decide)).2 (some 50)
  rw [h]
  decide

/-- Claim C5, counterexample to the frozen statement: with limit 1 the
specific-category run returns an item that the "all" run, capped at its own
single top-scored item, does not contain, so the superset inclusion fails
once the limit truncates. -/
theorem c5_counterexample :
    itemB ∈ newsApply critInternal [itemA, itemB] 1 ∧
      itemB ∉ newsApply critAll [itemA, itemB] 1 :=
  ⟨by decide, by decide⟩

/-- Claim C5 (amended): when the limit is at least the size of the item
collection, so the final slice truncates nothing, the category-"all" result
contains every item of the result for any specific category with all other
criteria fields equal; for the analyst pipeline the inclusion holds whenever
both runs return without throwing. -/
theorem c5_superset (c : FilterCriteria) (cat : String) (items : List Item)
    (N : Nat) (hN : items.length ≤ N) :
    (∀ x ∈ newsApply { c with category := cat } items N,
      x ∈ newsApply { c with category := "all" } items N) ∧
    (∀ l1 l2, analystApply { c with category := cat } items N = some l1 →
      analystApply { c with category := "all" } items N = some l2 →
      ∀ x ∈ l1, x ∈ l2) := by
  constructor
  · intro x hx
    unfold newsApply at hx ⊢
    have hx1 : x ∈ newsSearchFilter c.searchQuery
        (newsCategoryFilter cat items) :=
      mem_sortByScoreDesc.mp (List.mem_of_mem_take hx)
    have hx2 : x ∈ newsSearchFilter c.searchQuery items :=
      newsSearchFilter_mono (fun y hy => newsCategoryFilter_subset y hy) x hx1
    have hlen : (sortByScoreDesc (newsSearchFilter c.searchQuery
        (newsCategoryFilter "all" items))).length ≤ N := by
      rw [length_sortByScoreDesc, newsCategoryFilter_all]
      exact le_trans (newsSearchFilter_length_le _ _) hN
    show x ∈ (sortByScoreDesc (newsSearchFilter c.searchQuery
      (newsCategoryFilter "all" items))).take N
    rw [List.take_of_length_le hlen, newsCategoryFilter_all]
    exact mem_sortByScoreDesc.mpr hx2
  · intro l1 l2 h1 h2 x hx
    unfold analystApply at h1 h2
    by_cases hq : c.searchQuery = ""
    · simp only [analystSearchFilter, hq, ne_eq, not_true_eq_false,
        if_false, Option.some.injEq] at h1 h2
      subst h1
      subst h2
      have hx1 : x ∈ analystCategoryFilter cat items :=
        mem_sortByScoreDesc.mp (List.mem_of_mem_take hx)
      have hx2 : x ∈ items := analystCategoryFilter_subset x hx1
      have hlen : (sortByScoreDesc
          (analystCategoryFilter "all" items)).length ≤ N := by
        rw [length_sortByScoreDesc, analystCategoryFilter_all]
        exact hN
      rw [List.take_of_length_le hlen, analystCategoryFilter_all]
      exact mem_sortByScoreDesc.mpr hx2
    · simp only [analystSearchFilter, hq, ne_eq, not_false_eq_true,
        if_true] at h1 h2
      cases hfe1 : filterE (quoteMatchesQuery (lowerStr c.searchQuery))
          (analystCategoryFilter cat items) with
      | none => rw [hfe1] at h1; cases h1
      | some lsf1 =>
        cases hfe2 : filterE (quoteMatchesQuery (lowerStr c.searchQuery))
            (analystCategoryFilter "all" items) with
        | none => rw [hfe2] at h2; cases h2
        | some lsf2 =>
          rw [hfe1] at h1
          rw [hfe2] at h2
          simp only [Option.some.injEq] at h1 h2
          subst h1
          subst h2
          have hx1 : x ∈ lsf1 :=
            mem_sortByScoreDesc.mp (List.mem_of_mem_take hx)
          rw [filterE_eq_some hfe1, List.mem_filter] at hx1
          have hx2 : x ∈ lsf2 := by
            rw [filterE_eq_some hfe2, List.mem_filter,
              analystCategoryFilter_all]
            exact ⟨analystCategoryFilter_subset x hx1.1, hx1.2⟩
          have hlen : (sortByScoreDesc lsf2).length ≤ N := by
            rw [length_sortByScoreDesc, filterE_eq_some hfe2,
              analystCategoryFilter_all]
            exact le_trans (List.length_filter_le _ _) hN
          rw [List.take_of_length_le hlen]
          exact mem_sortByScoreDesc.mpr hx2

/-- Witness for C5: the internal_conflict item survives into the "all"
result once the limit is large enough. -/
theorem c5_superset_witness :
    itemB ∈ newsApply critAll [itemA, itemB] 10 :=
  (c5_superset critAll "internal_conflict" [itemA, itemB] 10
    (by decide)).1 itemB (by decide)

/-- Claim C6: for a region other than "global" having a reference
coordinate, the region filter retains exactly the hotspots whose Euclidean
distance to the reference coordinate in raw degree units is below the fixed
threshold 50 (stated over squared distances to stay in the rationals); a
hotspot exactly at the reference coordinate is included, one more than 50
units away is excluded, and region "global" removes nothing. -/
theorem c6_region_filter (region : String) (center : ℚ × ℚ)
    (hotspots : List Hotspot) (hsp : Hotspot)
    (h1 : region ≠ "") (h2 : region ≠ "global")
    (h3 : regionCoordinates region = some center) :
    (hsp ∈ regionFilter region hotspots ↔
      hsp ∈ hotspots ∧ distSq hsp.coordinates center < 2500) ∧
    (hsp.coordinates = center → hsp ∈ hotspots →
      hsp ∈ regionFilter region hotspots) ∧
    (2500 < distSq hsp.coordinates center →
      hsp ∉ regionFilter region hotspots) ∧
    (∀ hs : List Hotspot, regionFilter "global" hs = hs) := by
  have hmem : hsp ∈ regionFilter region hotspots ↔
      hsp ∈ hotspots ∧ distSq hsp.coordinates center < 2500 := by
    unfold regionFilter
    rw [if_pos ⟨h1, h2⟩, h3]
    show hsp ∈ hotspots.filter (withinRegion center) ↔ _
    rw [List.mem_filter]
    simp [withinRegion]
  refine ⟨hmem, ?_, ?_, ?_⟩
  · intro hco hin
    refine hmem.mpr ⟨hin, ?_⟩
    rw [hco]
    norm_num [distSq]
  · intro hfar hmem2
    exact absurd ((hmem.mp hmem2).2) (not_lt.mpr (le_of_lt hfar))
  · intro hs
    unfold regionFilter
    rw [if_neg (by decide)]

/-- Witness for C6: the hotspot sitting exactly at the US reference
coordinate is retained under region "us". -/
theorem c6_region_filter_witness :
    usHotspot ∈ regionFilter "us" [usHotspot] :=
  ((c6_region_filter "us" (-98.5795, 39.8283) [usHotspot] usHotspot
    (by decide) (by decide) rfl).2.1) rfl (by simp)

/-- Claim C7, counterexample to the frozen statement: the analyst pipeline
throws a TypeError (modelled as none) on a quote whose content field is
missing when a non-empty search query is active, instead of skipping the
missing text field. -/
theorem c7_counterexample :
    badQuote.content = none ∧ analystApply critQuery [badQuote] 5 = none :=
  ⟨rfl, by decide⟩

/-- Claim C7 (amended): the article pipeline never throws — an item missing
both title and content is simply not retained by a non-empty search, an item
with missing priorityScore compares as a tie with everything (NaN mapped to
+0) and therefore keeps its position at the front of the insertion rather
than sorting as lowest, and both pipelines return the empty result on empty
input as a valid terminal state; the analyst pipeline, however, throws when a
non-empty search reaches a quote whose content is missing. -/
theorem c7_error_handling :
    (∀ (query : String) (items : List Item) (x : Item), query ≠ "" →
      x.title = none → x.content = none →
      x ∉ newsSearchFilter query items) ∧
    (∀ (c : FilterCriteria) (lim : Nat),
      newsApply c [] lim = [] ∧ analystApply c [] lim = some []) ∧
    (∀ (x : Item) (xs : List Item), x.priority_score = none →
      sortByScoreDesc (x :: xs) = x :: sortByScoreDesc xs) ∧
    (∀ (c : FilterCriteria) (lim : Nat) (q : Item), c.searchQuery ≠ "" →
      c.category = "all" → q.content = none →
      analystApply c [q] lim = none) := by
  refine ⟨?_, ?_, ?_, ?_⟩
  · intro q items x hq ht hc hmem
    rw [mem_newsSearchFilter hq] at hmem
    have h2 := hmem.2
    simp [newsMatchesQuery, ht, hc] at h2
  · intro c lim
    constructor
    · simp [newsApply, newsCategoryFilter, newsSearchFilter,
        sortByScoreDesc]
    · simp [analystApply, analystCategoryFilter, analystSearchFilter,
        filterE, sortByScoreDesc]
  · intro x xs hx
    show insertDesc x (sortByScoreDesc xs) = x :: sortByScoreDesc xs
    cases h : sortByScoreDesc xs with
    | nil => rfl
    | cons w ws =>
      have hle : scoreLe x w = true := by
        cases hw : w.priority_score <;> simp [scoreLe, hx, hw]
      simp [insertDesc, hle]
  · intro c lim q hq hcall hcontent
    simp [analystApply, analystSearchFilter, analystCategoryFilter, hcall,
      hq, filterE, quoteMatchesQuery, hcontent]

/-- Witness for C7: the no-text item is silently skipped by the news search
filter. -/
theorem c7_error_handling_witness :
    noTextItem ∉ newsSearchFilter "zzz" [noTextItem] :=
  c7_error_handling.1 "zzz" [noTextItem] noTextItem (by decide) rfl rfl

/-- Claim C8: the news pipeline is idempotent — re-running it on its own
output with the same criteria and limit returns that output unchanged.  The
claimed side condition (limit at least the one-pass result length) always
holds because the slice caps the result at the limit. -/
theorem c8_idempotent (c : FilterCriteria) (items : List Item) (N : Nat)
    (_hN : (newsApply c items N).length ≤ N) :
    newsApply c (newsApply c items N) N = newsApply c items N :=
  newsApply_idem c items N

/-- Witness for C8 at a concrete collection and limit. -/
theorem c8_idempotent_witness :
    newsApply critAll (newsApply critAll [itemA, itemB] 10) 10
      = newsApply critAll [itemA, itemB] 10 :=
  c8_idempotent critAll [itemA, itemB] 10 (by decide)

/-- Claim C9: the chart series builder includes the labeled series of a known
category iff the selected category is "all" or exactly that category, never a
series for an explicitly-excluded category, and every emitted series carries
the fixed category color. -/
theorem c9_series_builder (category : String)
    (internal external economic : List ℚ) :
    ((⟨"Internal Conflict", internal, "#f44336"⟩ : ChartDataset) ∈
        buildConflictDatasets category internal external economic ↔
      (category = "all" ∨ category = "internal_conflict")) ∧
    ((⟨"External Conflict", external, "#2196f3"⟩ : ChartDataset) ∈
        buildConflictDatasets category internal external economic ↔
      (category = "all" ∨ category = "external_conflict")) ∧
    ((⟨"Economic Indicators", economic, "#4caf50"⟩ : ChartDataset) ∈
        buildConflictDatasets category internal external economic ↔
      (category = "all" ∨ category = "economic_indicators")) ∧
    (∀ d ∈ buildConflictDatasets category internal external economic,
      (d.label = "Internal Conflict" ∧
        d.borderColor = getCategoryColor "internal_conflict") ∨
      (d.label = "External Conflict" ∧
        d.borderColor = getCategoryColor "external_conflict") ∨
      (d.label = "Economic Indicators" ∧
        d.borderColor = getCategoryColor "economic_indicators")) := by
  have d12 : ("Internal Conflict" : String) ≠ "External Conflict" := by decide
  have d13 : ("Internal Conflict" : String) ≠ "Economic Indicators" := by
    decide
  have d21 : ("External Conflict" : String) ≠ "Internal Conflict" := by decide
  have d23 : ("External Conflict" : String) ≠ "Economic Indicators" := by
    decide
  have d31 : ("Economic Indicators" : String) ≠ "Internal Conflict" := by
    decide
  have d32 : ("Economic Indicators" : String) ≠ "External Conflict" := by
    decide
  have hgc1 : getCategoryColor "internal_conflict" = "#f44336" := by decide
  have hgc2 : getCategoryColor "external_conflict" = "#2196f3" := by decide
  have hgc3 : getCategoryColor "economic_indicators" = "#4caf50" := by decide
  by_cases h1 : category = "all" ∨ category = "internal_conflict" <;>
    by_cases h2 : category = "all" ∨ category = "external_conflict" <;>
      by_cases h3 : category = "all" ∨ category = "economic_indicators" <;>
        simp [buildConflictDatasets, h1, h2, h3, ChartDataset.mk.injEq,
          d12, d13, d21, d23, d31, d32, hgc1, hgc2, hgc3]

/-- Witness for C9: the internal-conflict series is present when exactly that
category is selected. -/
theorem c9_series_builder_witness :
    (⟨"Internal Conflict", [1], "#f44336"⟩ : ChartDataset) ∈
      buildConflictDatasets "internal_conflict" [1] [2] [3] :=
  (c9_series_builder "internal_conflict" [1] [2] [3]).1.mpr (Or.inr rfl)

/-- Claim C10: the two list pipelines are independent of dateRange,
startDate, endDate and region: criteria agreeing on category, searchQuery
and dataType produce identical results. -/
theorem c10_independence (c1 c2 : FilterCriteria) (items : List Item)
    (N : Nat) (hcat : c1.category = c2.category)
    (hq : c1.searchQuery = c2.searchQuery)
    (_hdt : c1.dataType = c2.dataType) :
    newsApply c1 items N = newsApply c2 items N ∧
    analystApply c1 items N = analystApply c2 items N := by
  unfold newsApply analystApply
  rw [hcat, hq]
  exact ⟨rfl, rfl⟩

/-- Witness for C10: two criteria differing in dateRange, region and the
custom dates produce the same pipeline results. -/
theorem c10_independence_witness :
    newsApply critAll [itemA] 5 = newsApply critOther [itemA] 5 ∧
    analystApply critAll [itemA] 5 = analystApply critOther [itemA] 5 :=
  c10_independence critAll critOther [itemA] 5 rfl rfl rfl
end NewsDashboard
